import Mathlib

/- Shallow embedding of the UMPAY payment gateway (src/umpay/app.py with
src/umpay/index.py agreeing on the abstract order store).  Orders are rows of
the orders table (app.py init_db, lines 59-75); the store is the list of rows,
with the UNIQUE constraint on order_id carried as a Pairwise hypothesis where a
theorem needs it.  Timestamps are integers (seconds); every occurrence of
datetime('now') becomes an explicit parameter.  Python Decimal values are
embedded as exact scaled integers (the Dec structure below), with their
rational value available through Dec.toRat.  The MD5 digest from hashlib is
abstracted as an
arbitrary function parameter: every property proved here holds for any digest
function, hence in particular for MD5. -/

namespace Umpay

/-- Order row, embedding the orders table created by init_db (app.py lines
59-75) and the in-memory order dict of index.py (lines 124-137): status
defaults to pending, transaction_hash and confirmed_at are nullable, amount
and currency are stored as text. -/
structure Order where
  order_id : String
  merchant_id : String
  amount : String
  currency : String
  payment_address : String
  status : String
  transaction_hash : Option String
  callback_url : Option String
  return_url : Option String
  created_at : Int
  expires_at : Int
  confirmed_at : Option Int
deriving DecidableEq, Repr

/-- Comparison used by Python sorted on (key, value) string pairs: tuples
compare lexicographically, strings by code points. -/
def pairLe (a b : String × String) : Bool :=
  decide (a.1 < b.1) || (a.1 == b.1 && decide (a.2 ≤ b.2))

/-- generate_signature (app.py lines 99-109, index.py lines 31-36): drop any
entry keyed signature, sort the remaining pairs, join them as key=value with
ampersands, append the secret, and digest.  The digest (MD5 hex uppercase in
the source) is an arbitrary function parameter. -/
def generate_signature (digest : String → String)
    (data : List (String × String)) (secret_key : String) : String :=
  let sorted_params := (data.filter (fun kv => kv.1 != "signature")).mergeSort pairLe
  let query_string := String.intercalate "&" (sorted_params.map (fun kv => kv.1 ++ "=" ++ kv.2))
  let sign_string := query_string ++ "&key=" ++ secret_key
  digest sign_string

/-- verify_signature (app.py lines 111-114): recompute and compare with a
constant-time string equality (hmac.compare_digest). -/
def verify_signature (digest : String → String)
    (data : List (String × String)) (signature secret_key : String) : Bool :=
  signature == generate_signature digest data secret_key

/-- generate_payment_address (app.py lines 116-123): the configured static
wallet address for the currency; none embeds the ValueError raised for any
other currency. -/
def generate_payment_address (usdtWallet trxWallet currency : String) : Option String :=
  if currency == "USDT" then some usdtWallet
  else if currency == "TRX" then some trxWallet
  else none

/-- ORDER_EXPIRE_MINUTES (app.py line 46). -/
def ORDER_EXPIRE_MINUTES : Int := 30

/-- data.get(k): first value stored under key k, if any. -/
def lookupField (data : List (String × String)) (k : String) : Option String :=
  (data.find? (fun kv => kv.1 == k)).map (fun kv => kv.2)

/-- Loop over required_fields (app.py lines 139-145): name of the first
missing required field, if any. -/
def firstMissing (data : List (String × String)) : List String → Option String
  | [] => none
  | f :: rest => if (lookupField data f).isNone then some f else firstMissing data rest

/-- QR template for USDT (app.py line 205). -/
def qrUsdt (payment_address amount : String) : String :=
  "https://api.qrserver.com/v1/create-qr-code/?size=200x200&data=tron:" ++
    payment_address ++ "?amount=" ++ amount ++ "&token=TR7NHqjeKQxGTCi8q8ZY4pL8otSzgjLj6t"

/-- QR template for TRX (app.py line 207). -/
def qrTrx (payment_address amount : String) : String :=
  "https://api.qrserver.com/v1/create-qr-code/?size=200x200&data=tron:" ++
    payment_address ++ "?amount=" ++ amount

/-- Outcome of a create_order request, with the HTTP code carried by
httpStatus below.  serverError embeds the outer except branch (app.py lines
219-223), reachable in the model only where the source could raise. -/
inductive CreateResponse where
  | missingField (field : String)
  | missingSig
  | badSig
  | unsupportedCurrency
  | duplicateOrder
  | serverError
  | ok (payment_id payment_address amount currency : String)
       (qr_code : Option String) (expires_at : Int)
deriving DecidableEq, Repr

/-- HTTP status paired with each create_order outcome (app.py lines 142-223). -/
def httpStatus : CreateResponse → Nat
  | .missingField _ => 400
  | .missingSig => 400
  | .badSig => 401
  | .unsupportedCurrency => 400
  | .duplicateOrder => 400
  | .serverError => 500
  | .ok _ _ _ _ _ _ => 200

/-- create_order (app.py lines 132-223): check required fields, pop and
verify the signature, check the currency, resolve the wallet address, and
insert unless the order_id already exists (the UNIQUE constraint's
IntegrityError; index.py lines 110-115 test membership in the dict, the same
predicate on the abstract store).  Returns the response and the new store. -/
def create_order (digest : String → String) (secret usdtWallet trxWallet : String)
    (now : Int) (data : List (String × String)) (store : List Order) :
    CreateResponse × List Order :=
  match firstMissing data ["merchant_id", "order_id", "amount", "currency"] with
  | some f => (.missingField f, store)
  | none =>
    match lookupField data "signature" with
    | none => (.missingSig, store)
    | some signature =>
      let data' := data.filter (fun kv => kv.1 != "signature")
      if !(verify_signature digest data' signature secret) then (.badSig, store)
      else
        match lookupField data' "currency", lookupField data' "order_id",
              lookupField data' "merchant_id", lookupField data' "amount" with
        | some currency, some order_id, some merchant_id, some amount =>
          if !(currency == "USDT" || currency == "TRX") then (.unsupportedCurrency, store)
          else
            match generate_payment_address usdtWallet trxWallet currency with
            | none => (.serverError, store)
            | some payment_address =>
              let expires_at := now + ORDER_EXPIRE_MINUTES * 60
              if store.any (fun o => o.order_id == order_id) then (.duplicateOrder, store)
              else
                let order : Order :=
                  { order_id := order_id, merchant_id := merchant_id, amount := amount,
                    currency := currency, payment_address := payment_address,
                    status := "pending", transaction_hash := none,
                    callback_url := lookupField data' "callback_url",
                    return_url := lookupField data' "return_url",
                    created_at := now, expires_at := expires_at, confirmed_at := none }
                let qr_code :=
                  if currency == "USDT" then some (qrUsdt payment_address amount)
                  else if currency == "TRX" then some (qrTrx payment_address amount)
                  else none
                (.ok order_id payment_address amount currency qr_code expires_at,
                 store ++ [order])
        | _, _, _, _ => (.serverError, store)

/-- One native TRX transaction as read from the indexer response (app.py
lines 365-371): its txID, the list of contractRet codes under ret, and its
raw_data.contract entries reduced to type and parameter.value.amount (the
source defaults a missing amount to 0, so a plain natural suffices). -/
structure TronContract where
  ctype : String
  amount : Nat
deriving DecidableEq, Repr

/-- Native transaction record; ret is the list of contractRet values, so the
guard at app.py line 366 is: ret nonempty and its head equals SUCCESS. -/
structure TronTx where
  txID : String
  ret : List String
  contracts : List TronContract
deriving DecidableEq, Repr

/-- One TRC20 transfer as read from the indexer response (app.py lines
383-389): transaction_id, destination, and the raw integer value. -/
structure Trc20Transfer where
  transaction_id : String
  toAddr : String
  value : Nat
deriving DecidableEq, Repr

/-- Exact decimal number with value num / 10 ^ scale, embedding Python
Decimal (sign and coefficient digits in num, the exponent in scale).  All
arithmetic on it below is exact integer arithmetic, never floating point. -/
structure Dec where
  num : Int
  scale : Nat
deriving DecidableEq, Repr

/-- Rational value denoted by a Dec. -/
def Dec.toRat (d : Dec) : ℚ := (d.num : ℚ) / 10 ^ d.scale

/-- Exact comparison of two Dec values, by cross-multiplying with the
positive powers of ten: this is how Decimal comparison decides
amount >= expected_amount in the source. -/
def Dec.le (a b : Dec) : Bool := decide (a.num * 10 ^ b.scale ≤ b.num * 10 ^ a.scale)

/-- Amount normalization (app.py lines 371 and 385): Decimal(raw) / 1000000,
the exact value raw / 10 ^ 6, used identically for TRX and USDT. -/
def normalizeRaw (raw : Nat) : Dec := ⟨(raw : Int), 6⟩

/-- Python truthiness of an optional string: None and the empty string are
falsy (app.py line 404 tests if transaction_hash). -/
def truthy : Option String → Bool
  | none => false
  | some s => s != ""

/-- update_order_status (app.py lines 398-421): with a truthy hash, set
status, transaction_hash and confirmed_at of every row matching order_id;
otherwise set status only.  The WHERE clause filters on order_id alone. -/
def update_order_status (store : List Order) (oid status : String)
    (transaction_hash : Option String) (now : Int) : List Order :=
  if truthy transaction_hash then
    store.map fun r =>
      if r.order_id == oid then
        { r with status := status, transaction_hash := transaction_hash,
                 confirmed_at := some now }
      else r
  else
    store.map fun r => if r.order_id == oid then { r with status := status } else r

/-- One delivered callback POST: destination URL and signed payload. -/
structure CallbackEvent where
  url : String
  payload : List (String × String)
deriving DecidableEq, Repr

/-- send_callback (app.py lines 423-448): no-op when callback_url is falsy;
otherwise build the payload, attach a signature generated over it, and POST
once.  The result is the list of POSTs performed (zero or one). -/
def send_callback (digest : String → String) (secret : String) (now : Int)
    (order : Order) (transaction_hash : String) : List CallbackEvent :=
  match order.callback_url with
  | none => []
  | some url =>
    if url == "" then []
    else
      let callback_data :=
        [("order_id", order.order_id), ("status", "completed"),
         ("transaction_hash", transaction_hash), ("amount", order.amount),
         ("currency", order.currency), ("timestamp", toString now)]
      [{ url := url,
         payload := callback_data ++
           [("signature", generate_signature digest callback_data secret)] }]

/-- Guard of the inner contract loop (app.py lines 369-373): a contract entry
qualifies when its type is TransferContract and its normalized amount meets
or exceeds the expected amount. -/
def contractMatches (expected : Dec) (c : TronContract) : Bool :=
  c.ctype == "TransferContract" && Dec.le expected (normalizeRaw c.amount)

/-- A native transaction triggers the order update (app.py lines 366-377)
when its first contractRet is SUCCESS and some contract entry qualifies; the
break after the update leaves the inner contract loop only, so each
qualifying transaction yields exactly one update. -/
def txMatches (expected : Dec) (tx : TronTx) : Bool :=
  (tx.ret.head? == some "SUCCESS") && tx.contracts.any (contractMatches expected)

/-- TRX branch of the per-order scan (app.py lines 361-377): the outer loop
over transactions has no break, so every qualifying transaction updates the
order and fires the callback again. -/
def processTrxOrder (digest : String → String) (secret : String) (now : Int)
    (order : Order) (expected : Dec) (txs : List TronTx)
    (acc : List Order × List CallbackEvent) : List Order × List CallbackEvent :=
  txs.foldl
    (fun acc tx =>
      if txMatches expected tx then
        (update_order_status acc.1 order.order_id "completed" (some tx.txID) now,
         acc.2 ++ send_callback digest secret now order tx.txID)
      else acc)
    acc

/-- Guard of the USDT transfer loop (app.py lines 384-387): destination
matches the payment address and the normalized value meets or exceeds the
expected amount. -/
def transferMatches (expected : Dec) (payment_address : String) (t : Trc20Transfer) : Bool :=
  t.toAddr == payment_address && Dec.le expected (normalizeRaw t.value)

/-- USDT branch of the per-order scan (app.py lines 379-391): the break sits
directly in the transfer loop, so only the first matching transfer updates
the order and fires the callback. -/
def processUsdtOrder (digest : String → String) (secret : String) (now : Int)
    (order : Order) (expected : Dec) (transfers : List Trc20Transfer)
    (acc : List Order × List CallbackEvent) : List Order × List CallbackEvent :=
  match transfers.find? (transferMatches expected order.payment_address) with
  | none => acc
  | some t =>
    (update_order_status acc.1 order.order_id "completed" (some t.transaction_id) now,
     acc.2 ++ send_callback digest secret now order t.transaction_id)

/-- Digit accumulator for parseDecimal. -/
def digitsToNat (cs : List Char) : Nat :=
  cs.foldl (fun n c => n * 10 + (c.toNat - 48)) 0

/-- Modelled after the library call Decimal(text) (app.py line 359),
restricted to plain signed decimal numerals: optional minus sign, digits, an
optional point and fraction digits; none embeds the InvalidOperation raised
on any other text. -/
def parseDecimal (s : String) : Option Dec :=
  let withSign := s.toList
  let signNeg := withSign.head? == some '-'
  let cs := if signNeg then withSign.tail else withSign
  let intPart := cs.takeWhile (fun c => c != '.')
  let rest := cs.dropWhile (fun c => c != '.')
  let build : List Char → Option Dec := fun fracPart =>
    if intPart.all Char.isDigit && fracPart.all Char.isDigit &&
        !(intPart.isEmpty && fracPart.isEmpty) then
      let n : Int := digitsToNat intPart * 10 ^ fracPart.length + digitsToNat fracPart
      some ⟨if signNeg then -n else n, fracPart.length⟩
    else none
  match rest with
  | [] => build []
  | _ :: fracPart => if fracPart.contains '.' then none else build fracPart

/-- Per-order body of check_payment_confirmations (app.py lines 356-391),
folded over the selected pending orders.  Decimal(order.amount) failing
raises out of the loop into the outer except (line 395), aborting the rest of
the pass while keeping the updates already committed; a failed fetch (None or
no data key) skips the order.  Currencies other than TRX and USDT fall
through both branches. -/
def reconLoop (digest : String → String) (secret : String) (now : Int)
    (trxData : String → Option (List TronTx))
    (usdtData : String → Option (List Trc20Transfer)) :
    List Order → List Order × List CallbackEvent → List Order × List CallbackEvent
  | [], acc => acc
  | order :: rest, acc =>
    match parseDecimal order.amount with
    | none => acc
    | some expected =>
      let acc' :=
        if order.currency == "TRX" then
          match trxData order.payment_address with
          | none => acc
          | some txs => processTrxOrder digest secret now order expected txs acc
        else if order.currency == "USDT" then
          match usdtData order.payment_address with
          | none => acc
          | some ts => processUsdtOrder digest secret now order expected ts acc
        else acc
      reconLoop digest secret now trxData usdtData rest acc'

/-- check_payment_confirmations (app.py lines 342-396): select the orders
with status pending and expires_at strictly in the future, then run the
per-order scan over that snapshot, threading the evolving store and
accumulating the callback POSTs performed. -/
def check_payment_confirmations (digest : String → String) (secret : String)
    (now : Int) (trxData : String → Option (List TronTx))
    (usdtData : String → Option (List Trc20Transfer)) (store : List Order) :
    List Order × List CallbackEvent :=
  let pending_orders := store.filter (fun o => o.status == "pending" && decide (now < o.expires_at))
  reconLoop digest secret now trxData usdtData pending_orders (store, [])

/-- expire_old_orders (app.py lines 450-467): set status to expired on every
row that is pending with expires_at at or before now; no other column is
touched. -/
def expire_old_orders (now : Int) (store : List Order) : List Order :=
  store.map fun o =>
    if o.status == "pending" && decide (o.expires_at ≤ now) then
      { o with status := "expired" }
    else o

/-- Success discriminator for a create_order outcome. -/
def isOk : CreateResponse → Bool
  | .ok _ _ _ _ _ _ => true
  | _ => false

/-- Hash-completion invariant of the data model: transaction_hash is non-null
exactly on completed orders. -/
def hashInv (store : List Order) : Prop :=
  ∀ o ∈ store, (o.transaction_hash ≠ none ↔ o.status = "completed")

/-- Indexer responses whose transaction ids are all non-empty, hence truthy
in Python; real chain transaction ids are 64 hex characters. -/
def TxIdsNonEmpty (trxData : String → Option (List TronTx))
    (usdtData : String → Option (List Trc20Transfer)) : Prop :=
  (∀ addr txs, trxData addr = some txs → ∀ tx ∈ txs, tx.txID ≠ "") ∧
  (∀ addr ts, usdtData addr = some ts → ∀ t ∈ ts, t.transaction_id ≠ "")

/-- Order stores reachable from the empty store through the three mutating
operations, with reconciliation fed indexer data whose transaction ids are
non-empty. -/
inductive Reachable (digest : String → String) (secret usdtWallet trxWallet : String) :
    List Order → Prop where
  | init : Reachable digest secret usdtWallet trxWallet []
  | create (now : Int) (d : List (String × String)) (s : List Order) :
      Reachable digest secret usdtWallet trxWallet s →
      Reachable digest secret usdtWallet trxWallet
        (create_order digest secret usdtWallet trxWallet now d s).2
  | recon (now : Int) (trxData : String → Option (List TronTx))
      (usdtData : String → Option (List Trc20Transfer)) (s : List Order) :
      Reachable digest secret usdtWallet trxWallet s →
      TxIdsNonEmpty trxData usdtData →
      Reachable digest secret usdtWallet trxWallet
        (check_payment_confirmations digest secret now trxData usdtData s).1
  | expire (now : Int) (s : List Order) :
      Reachable digest secret usdtWallet trxWallet s →
      Reachable digest secret usdtWallet trxWallet (expire_old_orders now s)

/-- A pass that never writes to the rows carrying o's order_id leaves o as
the only value such a row can hold. -/
def OnlyValue (o : Order) (s : List Order) : Prop :=
  ∀ x ∈ s, x.order_id = o.order_id → x = o

/-- Pending unexpired TRX order used to exercise the TRX branch of the
reconciliation scan on concrete indexer data. -/
def c2Order : Order :=
  { order_id := "O1", merchant_id := "M1", amount := "10", currency := "TRX",
    payment_address := "ADDR", status := "pending", transaction_hash := none,
    callback_url := some "https://merchant.example/cb", return_url := none,
    created_at := 0, expires_at := 100, confirmed_at := none }

/-- Two successful native transactions, each carrying one TransferContract of
10000000 sun, that is 10 TRX: both meet the 10 TRX order amount. -/
def c2Txs : List TronTx :=
  [⟨"T1", ["SUCCESS"], [⟨"TransferContract", 10000000⟩]⟩,
   ⟨"T2", ["SUCCESS"], [⟨"TransferContract", 10000000⟩]⟩]

/-- One reconciliation pass over the single pending order c2Order with the
indexer returning c2Txs for its address. -/
def c2Run : List Order × List CallbackEvent :=
  check_payment_confirmations (fun s => s) "k" 0 (fun _ => some c2Txs) (fun _ => none) [c2Order]

/-- Well-formed creation request for a USDT order: all required fields, and a
signature that verifies under the constant digest used with it. -/
def c7Data : List (String × String) :=
  [("merchant_id", "M1"), ("order_id", "O7"), ("amount", "5"),
   ("currency", "USDT"), ("signature", "X")]

/-- Well-formed creation request for a TRX order, signed the same way. -/
def c8Data : List (String × String) :=
  [("merchant_id", "M1"), ("order_id", "O8"), ("amount", "7"),
   ("currency", "TRX"), ("signature", "X")]

/-- Store holding the single order created from c8Data. -/
def c8Store : List Order :=
  (create_order (fun _ => "X") "k" "UW" "TW" 0 c8Data []).2

/-- Store after a reconciliation pass in which the indexer reports a
successful qualifying transfer whose txID is the empty string. -/
def c8After : List Order :=
  (check_payment_confirmations (fun _ => "X") "k" 0
    (fun _ => some [⟨"", ["SUCCESS"], [⟨"TransferContract", 7000000⟩]⟩])
    (fun _ => none) c8Store).1

/-- Completed order used to exercise terminal-state immutability on concrete
passes. -/
def c1Order : Order :=
  { order_id := "C1", merchant_id := "M1", amount := "10", currency := "TRX",
    payment_address := "ADDR", status := "completed", transaction_hash := some "H",
    callback_url := none, return_url := none, created_at := 0, expires_at := 100,
    confirmed_at := some 5 }

/-- Pending unexpired TRX order with amount 10.000000, used to exercise the
matching threshold concretely. -/
def c3TOrder : Order :=
  { order_id := "C3T", merchant_id := "M1", amount := "10.000000", currency := "TRX",
    payment_address := "ADDR", status := "pending", transaction_hash := none,
    callback_url := none, return_url := none, created_at := 0, expires_at := 100,
    confirmed_at := none }

/-- Pending unexpired USDT order with amount 10.000000, used to exercise the
matching threshold concretely. -/
def c3UOrder : Order :=
  { order_id := "C3U", merchant_id := "M1", amount := "10.000000", currency := "USDT",
    payment_address := "UADDR", status := "pending", transaction_hash := none,
    callback_url := none, return_url := none, created_at := 0, expires_at := 100,
    confirmed_at := none }

/-- Pending order whose deadline already passed, used to exercise expiry
monotonicity on concrete passes. -/
def c5Order : Order :=
  { order_id := "C5", merchant_id := "M1", amount := "10", currency := "TRX",
    payment_address := "ADDR", status := "pending", transaction_hash := none,
    callback_url := none, return_url := none, created_at := -100, expires_at := -5,
    confirmed_at := none }

lemma pairLe_iff (a b : String × String) :
    pairLe a b = true ↔ a.1 < b.1 ∨ (a.1 = b.1 ∧ a.2 ≤ b.2) := by
  simp [pairLe, Bool.or_eq_true, Bool.and_eq_true, decide_eq_true_iff, beq_iff_eq]

lemma pairLe_total (a b : String × String) : (pairLe a b || pairLe b a) = true := by
  rw [Bool.or_eq_true, pairLe_iff, pairLe_iff]
  rcases lt_trichotomy a.1 b.1 with h | h | h
  · exact Or.inl (Or.inl h)
  · rcases le_total a.2 b.2 with h2 | h2
    · exact Or.inl (Or.inr ⟨h, h2⟩)
    · exact Or.inr (Or.inr ⟨h.symm, h2⟩)
  · exact Or.inr (Or.inl h)

lemma pairLe_trans (a b c : String × String)
    (h1 : pairLe a b = true) (h2 : pairLe b c = true) : pairLe a c = true := by
  rw [pairLe_iff] at h1 h2 ⊢
  rcases h1 with h1 | ⟨e1, l1⟩ <;> rcases h2 with h2 | ⟨e2, l2⟩
  · exact Or.inl (h1.trans h2)
  · exact Or.inl (lt_of_lt_of_le h1 (le_of_eq e2))
  · exact Or.inl (lt_of_le_of_lt (le_of_eq e1) h2)
  · exact Or.inr ⟨e1.trans e2, l1.trans l2⟩

lemma pairLe_antisymm (a b : String × String)
    (h1 : pairLe a b = true) (h2 : pairLe b a = true) : a = b := by
  rw [pairLe_iff] at h1 h2
  rcases h1 with h1 | ⟨e1, l1⟩ <;> rcases h2 with h2 | ⟨e2, l2⟩
  · exact absurd h2 (asymm h1)
  · exact absurd h1 (by rw [e2]; exact lt_irrefl _)
  · exact absurd h2 (by rw [e1]; exact lt_irrefl _)
  · exact Prod.ext e1 (le_antisymm l1 l2)

lemma mergeSort_pairLe_congr {l' l'' : List (String × String)} (h : l'.Perm l'') :
    l'.mergeSort pairLe = l''.mergeSort pairLe := by
  haveI : IsAntisymm (String × String) (fun a b => pairLe a b = true) := ⟨pairLe_antisymm⟩
  exact List.eq_of_perm_of_sorted
    ((List.mergeSort_perm l' _).trans (h.trans (List.mergeSort_perm l'' _).symm))
    (List.sorted_mergeSort pairLe_trans pairLe_total l')
    (List.sorted_mergeSort pairLe_trans pairLe_total l'')

/-- C4: generate_signature is invariant under reordering of the parameter
list, ignores every entry keyed signature, and a signature it produces always
verifies against the same parameters and secret. -/
theorem signature_invariance_roundtrip (digest : String → String) (secret : String)
    (p q : List (String × String)) (hperm : p.Perm q) :
    generate_signature digest p secret = generate_signature digest q secret ∧
    (∀ v, generate_signature digest (("signature", v) :: p) secret =
        generate_signature digest p secret) ∧
    verify_signature digest p (generate_signature digest p secret) secret = true := by
  refine ⟨?_, ?_, ?_⟩
  · unfold generate_signature
    rw [mergeSort_pairLe_congr (hperm.filter _)]
  · intro v
    unfold generate_signature
    simp [List.filter_cons]
  · unfold verify_signature
    simp

theorem signature_invariance_roundtrip_witness :
    ([("b", "2"), ("a", "1")].Perm [("a", "1"), ("b", "2")]) ∧
    (generate_signature (fun s => s) [("b", "2"), ("a", "1")] "k" =
        generate_signature (fun s => s) [("a", "1"), ("b", "2")] "k" ∧
      (∀ v, generate_signature (fun s => s) (("signature", v) :: [("b", "2"), ("a", "1")]) "k" =
          generate_signature (fun s => s) [("b", "2"), ("a", "1")] "k") ∧
      verify_signature (fun s => s) [("b", "2"), ("a", "1")]
        (generate_signature (fun s => s) [("b", "2"), ("a", "1")] "k") "k" = true) :=
  ⟨List.Perm.swap ("a", "1") ("b", "2") [],
   signature_invariance_roundtrip (fun s => s) "k" _ _
     (List.Perm.swap ("a", "1") ("b", "2") [])⟩

lemma normalizeRaw_toRat (raw : Nat) : (normalizeRaw raw).toRat = (raw : ℚ) / 1000000 := by
  unfold normalizeRaw Dec.toRat
  norm_num

lemma Dec.le_iff_toRat (a b : Dec) : Dec.le a b = true ↔ a.toRat ≤ b.toRat := by
  unfold Dec.le Dec.toRat
  rw [decide_eq_true_iff, div_le_div_iff₀ (by positivity) (by positivity)]
  constructor
  · intro h
    exact_mod_cast h
  · intro h
    exact_mod_cast h

/-- C9: the human-readable amount compared during reconciliation is the raw
integer transfer amount divided by 10^6, computed exactly (scaled-integer
decimal arithmetic, never floating point): the normalized value is exactly
raw / 10^6, multiplying back by 10^6 recovers raw with no rounding, distinct
raw amounts stay distinct, the decimal comparison decides exactly the
rational order, and both the TRX contract guard and the USDT transfer guard
compare exactly raw / 10^6 against the order amount. -/
theorem amount_normalization_exact :
    (∀ raw : Nat, (normalizeRaw raw).toRat = (raw : ℚ) / 1000000) ∧
    (∀ raw : Nat, (normalizeRaw raw).toRat * 1000000 = (raw : ℚ)) ∧
    (∀ r₁ r₂ : Nat, (normalizeRaw r₁).toRat = (normalizeRaw r₂).toRat ↔ r₁ = r₂) ∧
    (∀ a b : Dec, Dec.le a b = true ↔ a.toRat ≤ b.toRat) ∧
    (∀ (expected : Dec) (c : TronContract),
      contractMatches expected c = true ↔
        (c.ctype = "TransferContract" ∧ expected.toRat ≤ (c.amount : ℚ) / 1000000)) ∧
    (∀ (expected : Dec) (addr : String) (t : Trc20Transfer),
      transferMatches expected addr t = true ↔
        (t.toAddr = addr ∧ expected.toRat ≤ (t.value : ℚ) / 1000000)) := by
  refine ⟨normalizeRaw_toRat, ?_, ?_, Dec.le_iff_toRat, ?_, ?_⟩
  · intro raw
    rw [normalizeRaw_toRat]
    field_simp
  · intro r₁ r₂
    rw [normalizeRaw_toRat, normalizeRaw_toRat,
      div_eq_div_iff (by norm_num) (by norm_num)]
    constructor
    · intro h
      exact_mod_cast mul_right_cancel₀ (by norm_num : (1000000 : ℚ) ≠ 0) h
    · intro h
      rw [h]
  · intro expected c
    simp [contractMatches, Bool.and_eq_true, beq_iff_eq, Dec.le_iff_toRat, normalizeRaw_toRat]
  · intro expected addr t
    simp [transferMatches, Bool.and_eq_true, beq_iff_eq, Dec.le_iff_toRat, normalizeRaw_toRat]

/-- C2: on the concrete failing input (pending 10 TRX order c2Order, the
indexer returning the two qualifying successful transactions c2Txs), the
reconciliation pass fires the callback POST once per qualifying transaction
(twice in total, the first carrying hash T1, the second T2) and leaves the
order completed with the hash of the SECOND transaction: the break at app.py
line 377 leaves only the inner contract loop, so scanning of the order's
transfers does not stop at the first match and the callback fires more than
once. -/
theorem trx_rescan_after_match :
    c2Run.2.length = 2 ∧
    (c2Run.2.map (fun e => lookupField e.payload "transaction_hash")) = [some "T1", some "T2"] ∧
    c2Run.1 =
      [{ c2Order with
          status := "completed", transaction_hash := some "T2", confirmed_at := some 0 }] := by
  decide

/-- C7 counterexample: with the USDT wallet address unconfigured (the empty
string), the otherwise valid USDT creation request c7Data succeeds with HTTP
200 and the empty string as payment address, instead of failing with a
configuration error. -/
theorem missing_wallet_not_rejected :
    (create_order (fun _ => "X") "k" "" "TW" 0 c7Data []).1 =
      .ok "O7" "" "5" "USDT" (some (qrUsdt "" "5")) 1800 ∧
    httpStatus (create_order (fun _ => "X") "k" "" "TW" 0 c7Data []).1 = 200 := by
  decide

/-- C8 counterexample: the store c8After is reached from the empty store by
create_order followed by check_payment_confirmations, yet it holds an order
that is completed while its transaction_hash is null: the indexer reported a
qualifying transfer whose txID is the empty string, which is falsy in Python,
so update_order_status took its status-only branch. -/
theorem completed_without_hash_reachable :
    ∃ o ∈ c8After, o.status = "completed" ∧ o.transaction_hash = none := by
  refine ⟨⟨"O8", "M1", "7", "TRX", "TW", "completed", none, none, none, 0, 1800, none⟩, ?_, rfl, rfl⟩
  have h : c8After =
      [⟨"O8", "M1", "7", "TRX", "TW", "completed", none, none, none, 0, 1800, none⟩] := by decide
  rw [h]
  exact List.mem_singleton.mpr rfl

lemma onlyValue_update (s : List Order) (oid status : String) (h : Option String)
    (now : Int) (o : Order) (hne : oid ≠ o.order_id) (hs : OnlyValue o s) :
    OnlyValue o (update_order_status s oid status h now) := by
  intro x hx hid
  unfold update_order_status at hx
  split at hx <;>
  · rcases List.mem_map.mp hx with ⟨y, hy, rfl⟩
    by_cases hc : (y.order_id == oid) = true
    · rw [if_pos hc] at hid
      exact absurd ((beq_iff_eq.mp hc).symm.trans hid) hne
    · rw [if_neg hc] at hid ⊢
      exact hs y hy hid

lemma onlyValue_processTrx (digest : String → String) (secret : String) (now : Int)
    (order : Order) (expected : Dec) (txs : List TronTx)
    (acc : List Order × List CallbackEvent) (o : Order)
    (hne : order.order_id ≠ o.order_id) (hs : OnlyValue o acc.1) :
    OnlyValue o (processTrxOrder digest secret now order expected txs acc).1 := by
  induction txs generalizing acc with
  | nil => exact hs
  | cons tx rest ih =>
    unfold processTrxOrder at ih ⊢
    rw [List.foldl_cons]
    by_cases hm : txMatches expected tx = true
    · rw [if_pos hm]
      exact ih _ (onlyValue_update _ _ _ _ _ _ hne hs)
    · rw [if_neg hm]
      exact ih _ hs

lemma onlyValue_processUsdt (digest : String → String) (secret : String) (now : Int)
    (order : Order) (expected : Dec) (ts : List Trc20Transfer)
    (acc : List Order × List CallbackEvent) (o : Order)
    (hne : order.order_id ≠ o.order_id) (hs : OnlyValue o acc.1) :
    OnlyValue o (processUsdtOrder digest secret now order expected ts acc).1 := by
  unfold processUsdtOrder
  cases ts.find? (transferMatches expected order.payment_address) with
  | none => exact hs
  | some t => exact onlyValue_update _ _ _ _ _ _ hne hs

lemma onlyValue_reconLoop (digest : String → String) (secret : String) (now : Int)
    (trxData : String → Option (List TronTx))
    (usdtData : String → Option (List Trc20Transfer))
    (pend : List Order) (acc : List Order × List CallbackEvent) (o : Order)
    (hall : ∀ p ∈ pend, p.order_id ≠ o.order_id) (hs : OnlyValue o acc.1) :
    OnlyValue o (reconLoop digest secret now trxData usdtData pend acc).1 := by
  induction pend generalizing acc with
  | nil => exact hs
  | cons p rest ih =>
    unfold reconLoop
    have hp : p.order_id ≠ o.order_id := hall p (List.mem_cons_self p rest)
    have hrest : ∀ x ∈ rest, x.order_id ≠ o.order_id :=
      fun x hx => hall x (List.mem_cons_of_mem p hx)
    cases parseDecimal p.amount with
    | none => exact hs
    | some expected =>
      apply ih _ hrest
      by_cases hc : (p.currency == "TRX") = true
      · rw [if_pos hc]
        cases trxData p.payment_address with
        | none => exact hs
        | some txs => exact onlyValue_processTrx _ _ _ _ _ _ _ _ hp hs
      · rw [if_neg hc]
        by_cases hc' : (p.currency == "USDT") = true
        · rw [if_pos hc']
          cases usdtData p.payment_address with
          | none => exact hs
          | some ts => exact onlyValue_processUsdt _ _ _ _ _ _ _ _ hp hs
        · rw [if_neg hc']
          exact hs

lemma uniq_eq_of_mem {store : List Order}
    (hU : store.Pairwise (fun a b => a.order_id ≠ b.order_id))
    {a b : Order} (ha : a ∈ store) (hb : b ∈ store) (hid : a.order_id = b.order_id) :
    a = b := by
  by_cases h : a = b
  · exact h
  · have hsym : Symmetric (fun (x y : Order) => x.order_id ≠ y.order_id) := by
      intro x y hxy h'
      exact hxy h'.symm
    exact absurd hid (hU.forall hsym ha hb h)

lemma onlyValue_check_of_not_selected (digest : String → String) (secret : String)
    (now : Int) (trxData : String → Option (List TronTx))
    (usdtData : String → Option (List Trc20Transfer)) (store : List Order) (o : Order)
    (hU : store.Pairwise (fun a b => a.order_id ≠ b.order_id)) (ho : o ∈ store)
    (hnp : (o.status == "pending" && decide (now < o.expires_at)) = false) :
    OnlyValue o (check_payment_confirmations digest secret now trxData usdtData store).1 := by
  unfold check_payment_confirmations
  apply onlyValue_reconLoop
  · intro p hp hpid
    have hmem := List.mem_of_mem_filter hp
    have hcond := List.of_mem_filter hp
    have : p = o := uniq_eq_of_mem hU hmem ho hpid
    rw [this] at hcond
    rw [hcond] at hnp
    exact Bool.noConfusion hnp
  · intro x hx hid
    exact uniq_eq_of_mem hU hx ho hid

/-- C1: an order already in a terminal state (completed or expired) is left
entirely unchanged (status, transaction_hash, confirmed_at and every other
column) by any subsequent reconciliation pass and by any subsequent expiry
pass: reconciliation selects only pending rows and writes only to the ids it
selected, and the expiry update's WHERE clause requires status pending. -/
theorem terminal_state_immutability (digest : String → String) (secret : String)
    (now now' : Int) (trxData : String → Option (List TronTx))
    (usdtData : String → Option (List Trc20Transfer)) (store : List Order) (o : Order)
    (hU : store.Pairwise (fun a b => a.order_id ≠ b.order_id)) (ho : o ∈ store)
    (hterm : o.status = "completed" ∨ o.status = "expired") :
    (∀ x ∈ (check_payment_confirmations digest secret now trxData usdtData store).1,
        x.order_id = o.order_id → x = o) ∧
    (∀ x ∈ expire_old_orders now' store, x.order_id = o.order_id → x = o) := by
  have hpend : (o.status == "pending") = false := by
    rcases hterm with h | h <;> rw [h] <;> decide
  constructor
  · apply onlyValue_check_of_not_selected _ _ _ _ _ _ _ hU ho
    rw [hpend, Bool.false_and]
  · intro x hx hid
    unfold expire_old_orders at hx
    rcases List.mem_map.mp hx with ⟨y, hy, rfl⟩
    by_cases hc : (y.status == "pending" && decide (y.expires_at ≤ now')) = true
    · rw [if_pos hc] at hid
      have hyo : y = o := uniq_eq_of_mem hU hy ho hid
      rw [hyo] at hc
      rw [hpend, Bool.false_and] at hc
      exact Bool.noConfusion hc
    · rw [if_neg hc] at hid ⊢
      exact uniq_eq_of_mem hU hy ho hid

theorem terminal_state_immutability_witness :
    (c1Order.status = "completed" ∨ c1Order.status = "expired") ∧
    ((∀ x ∈ (check_payment_confirmations (fun s => s) "k" 0 (fun _ => none)
          (fun _ => none) [c1Order]).1, x.order_id = c1Order.order_id → x = c1Order) ∧
     (∀ x ∈ expire_old_orders 500 [c1Order], x.order_id = c1Order.order_id → x = c1Order)) :=
  ⟨Or.inl rfl,
   terminal_state_immutability (fun s => s) "k" 0 500 (fun _ => none) (fun _ => none)
     [c1Order] c1Order (by simp) (by simp) (Or.inl rfl)⟩

/-- C5: an order whose expires_at lies strictly in the past at reconciliation
time is not selected by the pass (the query requires expires_at > now) and is
left entirely unchanged, in particular never transitioned to completed; and a
subsequent expiry pass (at any time now' ≥ now) transitions the order to
expired, leaving no order that is still pending with its deadline passed. -/
theorem expiry_monotonicity (digest : String → String) (secret : String)
    (now now' : Int) (trxData : String → Option (List TronTx))
    (usdtData : String → Option (List Trc20Transfer)) (store : List Order) (o : Order)
    (hU : store.Pairwise (fun a b => a.order_id ≠ b.order_id)) (ho : o ∈ store)
    (hp : o.status = "pending") (hpast : o.expires_at < now) (hle : now ≤ now') :
    (∀ x ∈ (check_payment_confirmations digest secret now trxData usdtData store).1,
        x.order_id = o.order_id → x = o) ∧
    ({ o with status := "expired" } ∈ expire_old_orders now' store) ∧
    (∀ x ∈ expire_old_orders now' store, ¬(x.status = "pending" ∧ x.expires_at ≤ now')) := by
  refine ⟨?_, ?_, ?_⟩
  · apply onlyValue_check_of_not_selected _ _ _ _ _ _ _ hU ho
    have : decide (now < o.expires_at) = false := decide_eq_false (lt_asymm hpast)
    rw [this, Bool.and_false]
  · unfold expire_old_orders
    apply List.mem_map.mpr
    refine ⟨o, ho, ?_⟩
    have hcond : (o.status == "pending" && decide (o.expires_at ≤ now')) = true := by
      rw [hp, Bool.and_eq_true, beq_iff_eq, decide_eq_true_eq]
      exact ⟨rfl, le_trans (le_of_lt hpast) hle⟩
    rw [if_pos hcond]
  · intro x hx hcontra
    unfold expire_old_orders at hx
    rcases List.mem_map.mp hx with ⟨y, hy, rfl⟩
    by_cases hc : (y.status == "pending" && decide (y.expires_at ≤ now')) = true
    · rw [if_pos hc] at hcontra
      exact absurd (show ("expired" : String) = "pending" from hcontra.1) (by decide)
    · rw [if_neg hc] at hcontra
      apply hc
      rw [Bool.and_eq_true, beq_iff_eq, decide_eq_true_eq]
      exact hcontra

theorem expiry_monotonicity_witness :
    (c5Order.status = "pending" ∧ c5Order.expires_at < 0 ∧ (0 : Int) ≤ 0) ∧
    ((∀ x ∈ (check_payment_confirmations (fun s => s) "k" 0 (fun _ => none) (fun _ => none)
          [c5Order]).1, x.order_id = c5Order.order_id → x = c5Order) ∧
     ({ c5Order with status := "expired" } ∈ expire_old_orders 0 [c5Order]) ∧
     (∀ x ∈ expire_old_orders 0 [c5Order], ¬(x.status = "pending" ∧ x.expires_at ≤ 0))) :=
  ⟨⟨rfl, by decide, le_refl 0⟩,
   expiry_monotonicity (fun s => s) "k" 0 0 (fun _ => none) (fun _ => none) [c5Order] c5Order
     (by simp) (by simp) rfl (by decide) (le_refl 0)⟩

lemma lookupField_filter (d : List (String × String)) (k : String) (hk : k ≠ "signature") :
    lookupField (d.filter (fun kv => kv.1 != "signature")) k = lookupField d k := by
  induction d with
  | nil => rfl
  | cons kv rest ih =>
    rw [List.filter_cons]
    by_cases hsig : (kv.1 != "signature") = true
    · rw [if_pos hsig]
      by_cases hkk : (kv.1 == k) = true
      · unfold lookupField
        rw [List.find?_cons, List.find?_cons, hkk]
      · unfold lookupField
        rw [List.find?_cons, List.find?_cons, Bool.of_not_eq_true hkk]
        exact ih
    · rw [if_neg hsig]
      have hksig : kv.1 = "signature" := by
        simpa [bne_iff_ne] using hsig
      have hkk : (kv.1 == k) = false := by
        rw [hksig]
        exact beq_eq_false_iff_ne.mpr (Ne.symm hk)
      unfold lookupField
      rw [List.find?_cons, hkk]
      exact ih

lemma firstMissing_eq_none (d : List (String × String)) (m oid amt cur : String)
    (hm : lookupField d "merchant_id" = some m) (ho : lookupField d "order_id" = some oid)
    (ha : lookupField d "amount" = some amt) (hc : lookupField d "currency" = some cur) :
    firstMissing d ["merchant_id", "order_id", "amount", "currency"] = none := by
  simp [firstMissing, hm, ho, ha, hc]

lemma create_order_valid (digest : String → String) (secret uW tW : String) (now : Int)
    (d : List (String × String)) (store : List Order) (m oid amt cur sgn : String)
    (hm : lookupField d "merchant_id" = some m) (ho : lookupField d "order_id" = some oid)
    (ha : lookupField d "amount" = some amt) (hc : lookupField d "currency" = some cur)
    (hs : lookupField d "signature" = some sgn)
    (hv : verify_signature digest (d.filter (fun kv => kv.1 != "signature")) sgn secret = true)
    (hcur : cur = "USDT" ∨ cur = "TRX") :
    create_order digest secret uW tW now d store =
      if store.any (fun o => o.order_id == oid) then (.duplicateOrder, store)
      else
        (.ok oid (if cur == "USDT" then uW else tW) amt cur
           (some (if cur == "USDT" then qrUsdt uW amt else qrTrx tW amt))
           (now + ORDER_EXPIRE_MINUTES * 60),
         store ++ [{ order_id := oid, merchant_id := m, amount := amt, currency := cur,
                     payment_address := if cur == "USDT" then uW else tW,
                     status := "pending", transaction_hash := none,
                     callback_url :=
                       lookupField (d.filter (fun kv => kv.1 != "signature")) "callback_url",
                     return_url :=
                       lookupField (d.filter (fun kv => kv.1 != "signature")) "return_url",
                     created_at := now, expires_at := now + ORDER_EXPIRE_MINUTES * 60,
                     confirmed_at := none }]) := by
  simp only [create_order]
  rw [firstMissing_eq_none d m oid amt cur hm ho ha hc, hs]
  dsimp only
  rw [hv]
  simp only [Bool.not_true, Bool.false_eq_true, if_false]
  rw [lookupField_filter d "currency" (by decide), lookupField_filter d "order_id" (by decide),
    lookupField_filter d "merchant_id" (by decide), lookupField_filter d "amount" (by decide),
    hc, ho, hm, ha]
  dsimp only
  rcases hcur with rfl | rfl <;> simp [generate_payment_address]

lemma create_order_unsupported (digest : String → String) (secret uW tW : String)
    (now : Int) (d : List (String × String)) (store : List Order)
    (m oid amt cur sgn : String)
    (hm : lookupField d "merchant_id" = some m) (ho : lookupField d "order_id" = some oid)
    (ha : lookupField d "amount" = some amt) (hc : lookupField d "currency" = some cur)
    (hs : lookupField d "signature" = some sgn)
    (hv : verify_signature digest (d.filter (fun kv => kv.1 != "signature")) sgn secret = true)
    (hbad1 : cur ≠ "USDT") (hbad2 : cur ≠ "TRX") :
    create_order digest secret uW tW now d store = (.unsupportedCurrency, store) := by
  simp only [create_order]
  rw [firstMissing_eq_none d m oid amt cur hm ho ha hc, hs]
  dsimp only
  rw [hv]
  simp only [Bool.not_true, Bool.false_eq_true, if_false]
  rw [lookupField_filter d "currency" (by decide), lookupField_filter d "order_id" (by decide),
    lookupField_filter d "merchant_id" (by decide), lookupField_filter d "amount" (by decide),
    hc, ho, hm, ha]
  dsimp only
  have hcond : (cur == "USDT" || cur == "TRX") = false := by
    rw [Bool.or_eq_false_iff]
    exact ⟨beq_eq_false_iff_ne.mpr hbad1, beq_eq_false_iff_ne.mpr hbad2⟩
  rw [hcond]
  rfl

lemma create_order_cases (digest : String → String) (secret uW tW : String) (now : Int)
    (d : List (String × String)) (store : List Order) :
    ((create_order digest secret uW tW now d store).2 = store ∧
      isOk (create_order digest secret uW tW now d store).1 = false) ∨
    (∃ o : Order, o.status = "pending" ∧ o.transaction_hash = none ∧
      isOk (create_order digest secret uW tW now d store).1 = true ∧
      (create_order digest secret uW tW now d store).2 = store ++ [o]) := by
  simp only [create_order]
  repeat' split
  all_goals first
    | exact Or.inl ⟨rfl, rfl⟩
    | exact Or.inr ⟨_, rfl, rfl, rfl, rfl⟩

/-- C10: every create_order call that fails (missing required field, missing
signature, signature mismatch, unsupported currency, duplicate order_id, or
the server-error branch) leaves the order store exactly as it was: no row is
inserted and no row is modified. -/
theorem creation_failure_atomicity (digest : String → String) (secret uW tW : String)
    (now : Int) (d : List (String × String)) (store : List Order)
    (hfail : isOk (create_order digest secret uW tW now d store).1 = false) :
    (create_order digest secret uW tW now d store).2 = store := by
  rcases create_order_cases digest secret uW tW now d store with ⟨h, _⟩ | ⟨o, _, _, hok, _⟩
  · exact h
  · rw [hok] at hfail
    exact Bool.noConfusion hfail

theorem creation_failure_atomicity_witness :
    isOk (create_order (fun s => s) "k" "UW" "TW" 0 [("order_id", "O1")] [c1Order]).1 = false ∧
    (create_order (fun s => s) "k" "UW" "TW" 0 [("order_id", "O1")] [c1Order]).2 = [c1Order] :=
  ⟨by decide,
   creation_failure_atomicity (fun s => s) "k" "UW" "TW" 0 [("order_id", "O1")] [c1Order]
     (by decide)⟩

/-- C6: two create_order calls that are both otherwise valid (required
fields present, verifying signature, supported currency) and carry the same
order_id: the first succeeds and appends its order, the second fails with the
duplicate-order error and HTTP 400 whatever its other fields are, and the
store — in particular the order stored by the first call — is left exactly
as the first call left it. -/
theorem duplicate_creation_boundary (digest : String → String) (secret uW tW : String)
    (now₁ now₂ : Int) (d₁ d₂ : List (String × String)) (store : List Order)
    (m₁ oid amt₁ cur₁ sgn₁ m₂ amt₂ cur₂ sgn₂ : String)
    (h1m : lookupField d₁ "merchant_id" = some m₁) (h1o : lookupField d₁ "order_id" = some oid)
    (h1a : lookupField d₁ "amount" = some amt₁) (h1c : lookupField d₁ "currency" = some cur₁)
    (h1s : lookupField d₁ "signature" = some sgn₁)
    (h1v : verify_signature digest (d₁.filter (fun kv => kv.1 != "signature")) sgn₁ secret = true)
    (h1cur : cur₁ = "USDT" ∨ cur₁ = "TRX")
    (h2m : lookupField d₂ "merchant_id" = some m₂) (h2o : lookupField d₂ "order_id" = some oid)
    (h2a : lookupField d₂ "amount" = some amt₂) (h2c : lookupField d₂ "currency" = some cur₂)
    (h2s : lookupField d₂ "signature" = some sgn₂)
    (h2v : verify_signature digest (d₂.filter (fun kv => kv.1 != "signature")) sgn₂ secret = true)
    (h2cur : cur₂ = "USDT" ∨ cur₂ = "TRX")
    (hfresh : ∀ o ∈ store, o.order_id ≠ oid) :
    ((create_order digest secret uW tW now₁ d₁ store).1 =
        .ok oid (if cur₁ == "USDT" then uW else tW) amt₁ cur₁
          (some (if cur₁ == "USDT" then qrUsdt uW amt₁ else qrTrx tW amt₁))
          (now₁ + ORDER_EXPIRE_MINUTES * 60)) ∧
    (create_order digest secret uW tW now₂ d₂
        (create_order digest secret uW tW now₁ d₁ store).2).1 = .duplicateOrder ∧
    httpStatus (create_order digest secret uW tW now₂ d₂
        (create_order digest secret uW tW now₁ d₁ store).2).1 = 400 ∧
    (create_order digest secret uW tW now₂ d₂
        (create_order digest secret uW tW now₁ d₁ store).2).2 =
      (create_order digest secret uW tW now₁ d₁ store).2 := by
  have hany : store.any (fun o => o.order_id == oid) = false := by
    rw [List.any_eq_false]
    intro o ho
    simp only [beq_iff_eq]
    exact hfresh o ho
  have E1 := create_order_valid digest secret uW tW now₁ d₁ store m₁ oid amt₁ cur₁ sgn₁
    h1m h1o h1a h1c h1s h1v h1cur
  rw [hany] at E1
  simp only [Bool.false_eq_true, if_false] at E1
  have hstore₂ : (create_order digest secret uW tW now₁ d₁ store).2 = store ++ [_] :=
    congrArg Prod.snd E1
  have hany₂ : ((create_order digest secret uW tW now₁ d₁ store).2).any
      (fun o => o.order_id == oid) = true := by
    rw [hstore₂, List.any_append]
    apply Bool.or_eq_true_iff.mpr
    right
    simp
  have E2 := create_order_valid digest secret uW tW now₂ d₂
    (create_order digest secret uW tW now₁ d₁ store).2 m₂ oid amt₂ cur₂ sgn₂
    h2m h2o h2a h2c h2s h2v h2cur
  rw [hany₂, if_pos rfl] at E2
  refine ⟨congrArg Prod.fst E1, ?_, ?_, ?_⟩
  · rw [E2]
  · rw [E2]
    rfl
  · rw [E2]

theorem duplicate_creation_boundary_witness :
    (∀ o ∈ ([] : List Order), o.order_id ≠ "OD") ∧
    ((create_order (fun _ => "X") "k" "UW" "TW" 5
        [("merchant_id", "M2"), ("order_id", "OD"), ("amount", "2"), ("currency", "USDT"),
         ("signature", "X")]
        (create_order (fun _ => "X") "k" "UW" "TW" 0
          [("merchant_id", "M1"), ("order_id", "OD"), ("amount", "1"), ("currency", "TRX"),
           ("signature", "X")] []).2).1 = .duplicateOrder) :=
  ⟨fun o ho => absurd ho (List.not_mem_nil o),
   (duplicate_creation_boundary (fun _ => "X") "k" "UW" "TW" 0 5
      [("merchant_id", "M1"), ("order_id", "OD"), ("amount", "1"), ("currency", "TRX"),
       ("signature", "X")]
      [("merchant_id", "M2"), ("order_id", "OD"), ("amount", "2"), ("currency", "USDT"),
       ("signature", "X")] []
      "M1" "OD" "1" "TRX" "X" "M2" "2" "USDT" "X"
      rfl rfl rfl rfl rfl (by decide) (Or.inr rfl)
      rfl rfl rfl rfl rfl (by decide) (Or.inl rfl)
      (fun o ho => absurd ho (List.not_mem_nil o))).2.1⟩

/-- C7 amended: missing wallet configuration is NOT rejected by the code:
a create_order request naming a supported currency whose wallet address is
unconfigured (the empty string) succeeds, returning and storing the empty
string as the payment address; only a request naming an unsupported currency
fails, with the 400 validation-class error. -/
theorem wallet_config_behavior (digest : String → String) (secret tW : String) (now : Int)
    (d e : List (String × String)) (store : List Order)
    (m oid amt sgn me oide amte cure sgne : String)
    (hm : lookupField d "merchant_id" = some m) (ho : lookupField d "order_id" = some oid)
    (ha : lookupField d "amount" = some amt) (hc : lookupField d "currency" = some "USDT")
    (hs : lookupField d "signature" = some sgn)
    (hv : verify_signature digest (d.filter (fun kv => kv.1 != "signature")) sgn secret = true)
    (hfresh : ∀ o ∈ store, o.order_id ≠ oid)
    (hem : lookupField e "merchant_id" = some me) (heo : lookupField e "order_id" = some oide)
    (hea : lookupField e "amount" = some amte) (hec : lookupField e "currency" = some cure)
    (hes : lookupField e "signature" = some sgne)
    (hev : verify_signature digest (e.filter (fun kv => kv.1 != "signature")) sgne secret = true)
    (hbad1 : cure ≠ "USDT") (hbad2 : cure ≠ "TRX") :
    ((create_order digest secret "" tW now d store).1 =
        .ok oid "" amt "USDT" (some (qrUsdt "" amt)) (now + ORDER_EXPIRE_MINUTES * 60)) ∧
    (create_order digest secret "" tW now e store = (.unsupportedCurrency, store)) ∧
    httpStatus CreateResponse.unsupportedCurrency = 400 := by
  refine ⟨?_, ?_, rfl⟩
  · have hany : store.any (fun o => o.order_id == oid) = false := by
      rw [List.any_eq_false]
      intro o hoo
      simp only [beq_iff_eq]
      exact hfresh o hoo
    have E := create_order_valid digest secret "" tW now d store m oid amt "USDT" sgn
      hm ho ha hc hs hv (Or.inl rfl)
    rw [hany] at E
    simp only [Bool.false_eq_true, if_false] at E
    simpa using congrArg Prod.fst E
  · exact create_order_unsupported digest secret "" tW now e store me oide amte cure sgne
      hem heo hea hec hes hev hbad1 hbad2

theorem wallet_config_behavior_witness :
    (("EUR" : String) ≠ "USDT") ∧
    (((create_order (fun _ => "X") "k" "" "TW" 0 c7Data []).1 =
        .ok "O7" "" "5" "USDT" (some (qrUsdt "" "5")) (0 + ORDER_EXPIRE_MINUTES * 60)) ∧
     (create_order (fun _ => "X") "k" "" "TW" 0
        [("merchant_id", "M1"), ("order_id", "O7"), ("amount", "5"), ("currency", "EUR"),
         ("signature", "X")] [] = (.unsupportedCurrency, [])) ∧
     httpStatus CreateResponse.unsupportedCurrency = 400) :=
  ⟨by decide,
   wallet_config_behavior (fun _ => "X") "k" "TW" 0 c7Data
     [("merchant_id", "M1"), ("order_id", "O7"), ("amount", "5"), ("currency", "EUR"),
      ("signature", "X")] []
     "M1" "O7" "5" "X" "M1" "O7" "5" "EUR" "X"
     rfl rfl rfl rfl rfl (by decide)
     (fun o ho => absurd ho (List.not_mem_nil o))
     rfl rfl rfl rfl rfl (by decide) (by decide) (by decide)⟩

/-- C3: during reconciliation of a pending unexpired order, a single
reported transfer whose normalized amount equals the order's decimal amount
exactly completes the order with that transfer's hash, and a transfer whose
normalized amount is strictly less leaves the order pending and untouched;
this holds for the TRX branch (order oT) and the USDT branch (order oU)
alike. -/
theorem matching_threshold (digest : String → String) (secret : String) (now : Int)
    (oT oU : Order) (dq : Dec) (tid tidU : String) (raw rawU : Nat)
    (hT : oT.status = "pending") (hTe : now < oT.expires_at) (hTc : oT.currency = "TRX")
    (hTq : parseDecimal oT.amount = some dq) (htid : tid ≠ "")
    (hU : oU.status = "pending") (hUe : now < oU.expires_at) (hUc : oU.currency = "USDT")
    (hUq : parseDecimal oU.amount = some dq) (htidU : tidU ≠ "") :
    ((normalizeRaw raw).toRat = dq.toRat →
      (check_payment_confirmations digest secret now
          (fun _ => some [⟨tid, ["SUCCESS"], [⟨"TransferContract", raw⟩]⟩])
          (fun _ => none) [oT]).1 =
        [{ oT with status := "completed", transaction_hash := some tid, confirmed_at := some now }]) ∧
    ((normalizeRaw raw).toRat < dq.toRat →
      check_payment_confirmations digest secret now
          (fun _ => some [⟨tid, ["SUCCESS"], [⟨"TransferContract", raw⟩]⟩])
          (fun _ => none) [oT] = ([oT], [])) ∧
    ((normalizeRaw rawU).toRat = dq.toRat →
      (check_payment_confirmations digest secret now (fun _ => none)
          (fun _ => some [⟨tidU, oU.payment_address, rawU⟩]) [oU]).1 =
        [{ oU with status := "completed", transaction_hash := some tidU, confirmed_at := some now }]) ∧
    ((normalizeRaw rawU).toRat < dq.toRat →
      check_payment_confirmations digest secret now (fun _ => none)
          (fun _ => some [⟨tidU, oU.payment_address, rawU⟩]) [oU] = ([oU], [])) := by
  have hdecT : decide (now < oT.expires_at) = true := decide_eq_true hTe
  have hdecU : decide (now < oU.expires_at) = true := decide_eq_true hUe
  have htrT : truthy (some tid) = true := by
    simp [truthy, htid]
  have htrU : truthy (some tidU) = true := by
    simp [truthy, htidU]
  refine ⟨?_, ?_, ?_, ?_⟩
  · intro heq
    have hle : Dec.le dq (normalizeRaw raw) = true :=
      (Dec.le_iff_toRat dq (normalizeRaw raw)).mpr (le_of_eq heq.symm)
    simp [check_payment_confirmations, reconLoop, processTrxOrder, txMatches,
      contractMatches, update_order_status, send_callback, List.filter_cons,
      hT, hTc, hTq, hdecT, hle, htrT]
  · intro hlt
    have hle : Dec.le dq (normalizeRaw raw) = false := by
      rw [Bool.eq_false_iff]
      intro h
      exact absurd ((Dec.le_iff_toRat dq (normalizeRaw raw)).mp h) (not_le.mpr hlt)
    simp [check_payment_confirmations, reconLoop, processTrxOrder, txMatches,
      contractMatches, List.filter_cons, hT, hTc, hTq, hdecT, hle]
  · intro heq
    have hle : Dec.le dq (normalizeRaw rawU) = true :=
      (Dec.le_iff_toRat dq (normalizeRaw rawU)).mpr (le_of_eq heq.symm)
    simp [check_payment_confirmations, reconLoop, processUsdtOrder, transferMatches,
      update_order_status, send_callback, List.filter_cons, List.find?,
      hU, hUc, hUq, hdecU, hle, htrU]
  · intro hlt
    have hle : Dec.le dq (normalizeRaw rawU) = false := by
      rw [Bool.eq_false_iff]
      intro h
      exact absurd ((Dec.le_iff_toRat dq (normalizeRaw rawU)).mp h) (not_le.mpr hlt)
    simp [check_payment_confirmations, reconLoop, processUsdtOrder, transferMatches,
      List.filter_cons, List.find?, hU, hUc, hUq, hdecU, hle]

theorem matching_threshold_witness :
    (parseDecimal c3TOrder.amount = some ⟨10000000, 6⟩) ∧
    (((normalizeRaw 10000000).toRat = Dec.toRat ⟨10000000, 6⟩ →
      (check_payment_confirmations (fun s => s) "k" 0
          (fun _ => some [⟨"T1", ["SUCCESS"], [⟨"TransferContract", 10000000⟩]⟩])
          (fun _ => none) [c3TOrder]).1 =
        [{ c3TOrder with status := "completed", transaction_hash := some "T1", confirmed_at := some 0 }]) ∧
    ((normalizeRaw 10000000).toRat < Dec.toRat ⟨10000000, 6⟩ →
      check_payment_confirmations (fun s => s) "k" 0
          (fun _ => some [⟨"T1", ["SUCCESS"], [⟨"TransferContract", 10000000⟩]⟩])
          (fun _ => none) [c3TOrder] = ([c3TOrder], [])) ∧
    ((normalizeRaw 10000000).toRat = Dec.toRat ⟨10000000, 6⟩ →
      (check_payment_confirmations (fun s => s) "k" 0 (fun _ => none)
          (fun _ => some [⟨"S1", c3UOrder.payment_address, 10000000⟩]) [c3UOrder]).1 =
        [{ c3UOrder with status := "completed", transaction_hash := some "S1", confirmed_at := some 0 }]) ∧
    ((normalizeRaw 10000000).toRat < Dec.toRat ⟨10000000, 6⟩ →
      check_payment_confirmations (fun s => s) "k" 0 (fun _ => none)
          (fun _ => some [⟨"S1", c3UOrder.payment_address, 10000000⟩]) [c3UOrder] =
        ([c3UOrder], []))) :=
  ⟨by decide,
   matching_threshold (fun s => s) "k" 0 c3TOrder c3UOrder ⟨10000000, 6⟩ "T1" "S1"
     10000000 10000000 rfl (by decide) rfl (by decide) (by decide)
     rfl (by decide) rfl (by decide) (by decide)⟩

lemma hashInv_update (s : List Order) (oid h : String) (now : Int)
    (hs : hashInv s) (hh : h ≠ "") :
    hashInv (update_order_status s oid "completed" (some h) now) := by
  have htr : truthy (some h) = true := by
    simp [truthy, hh]
  intro o ho
  unfold update_order_status at ho
  rw [if_pos htr] at ho
  rcases List.mem_map.mp ho with ⟨y, hy, rfl⟩
  by_cases hc : (y.order_id == oid) = true
  · rw [if_pos hc]
    constructor
    · intro _
      rfl
    · intro _
      exact Option.some_ne_none h
  · rw [if_neg hc]
    exact hs y hy

lemma hashInv_processTrx (digest : String → String) (secret : String) (now : Int)
    (order : Order) (expected : Dec) (txs : List TronTx)
    (acc : List Order × List CallbackEvent)
    (hs : hashInv acc.1) (hids : ∀ tx ∈ txs, tx.txID ≠ "") :
    hashInv (processTrxOrder digest secret now order expected txs acc).1 := by
  induction txs generalizing acc with
  | nil => exact hs
  | cons tx rest ih =>
    unfold processTrxOrder at ih ⊢
    rw [List.foldl_cons]
    have hrest : ∀ t ∈ rest, t.txID ≠ "" := fun t ht => hids t (List.mem_cons_of_mem tx ht)
    by_cases hm : txMatches expected tx = true
    · rw [if_pos hm]
      exact ih _ (hashInv_update _ _ _ _ hs (hids tx (List.mem_cons_self tx rest))) hrest
    · rw [if_neg hm]
      exact ih _ hs hrest

lemma hashInv_processUsdt (digest : String → String) (secret : String) (now : Int)
    (order : Order) (expected : Dec) (ts : List Trc20Transfer)
    (acc : List Order × List CallbackEvent)
    (hs : hashInv acc.1) (hids : ∀ t ∈ ts, t.transaction_id ≠ "") :
    hashInv (processUsdtOrder digest secret now order expected ts acc).1 := by
  unfold processUsdtOrder
  cases hf : ts.find? (transferMatches expected order.payment_address) with
  | none => exact hs
  | some t =>
    exact hashInv_update _ _ _ _ hs (hids t (List.mem_of_find?_eq_some hf))

lemma hashInv_reconLoop (digest : String → String) (secret : String) (now : Int)
    (trxData : String → Option (List TronTx))
    (usdtData : String → Option (List Trc20Transfer))
    (pend : List Order) (acc : List Order × List CallbackEvent)
    (hs : hashInv acc.1) (hND : TxIdsNonEmpty trxData usdtData) :
    hashInv (reconLoop digest secret now trxData usdtData pend acc).1 := by
  induction pend generalizing acc with
  | nil => exact hs
  | cons p rest ih =>
    unfold reconLoop
    cases parseDecimal p.amount with
    | none => exact hs
    | some expected =>
      apply ih
      by_cases hc : (p.currency == "TRX") = true
      · rw [if_pos hc]
        cases hf : trxData p.payment_address with
        | none => exact hs
        | some txs => exact hashInv_processTrx _ _ _ _ _ _ _ hs (hND.1 _ _ hf)
      · rw [if_neg hc]
        by_cases hc' : (p.currency == "USDT") = true
        · rw [if_pos hc']
          cases hf : usdtData p.payment_address with
          | none => exact hs
          | some ts => exact hashInv_processUsdt _ _ _ _ _ _ _ hs (hND.2 _ _ hf)
        · rw [if_neg hc']
          exact hs

lemma hashInv_check (digest : String → String) (secret : String) (now : Int)
    (trxData : String → Option (List TronTx))
    (usdtData : String → Option (List Trc20Transfer)) (store : List Order)
    (hs : hashInv store) (hND : TxIdsNonEmpty trxData usdtData) :
    hashInv (check_payment_confirmations digest secret now trxData usdtData store).1 :=
  hashInv_reconLoop _ _ _ _ _ _ _ hs hND

lemma hashInv_expire (now : Int) (store : List Order) (hs : hashInv store) :
    hashInv (expire_old_orders now store) := by
  intro o ho
  unfold expire_old_orders at ho
  rcases List.mem_map.mp ho with ⟨y, hy, rfl⟩
  by_cases hc : (y.status == "pending" && decide (y.expires_at ≤ now)) = true
  · rw [if_pos hc]
    have hyp : y.status = "pending" := by
      rw [Bool.and_eq_true] at hc
      exact beq_iff_eq.mp hc.1
    have hnone : y.transaction_hash = none := by
      by_contra hne
      have hcom := (hs y hy).mp hne
      rw [hyp] at hcom
      exact absurd hcom (by decide)
    constructor
    · intro hcon
      exact absurd hnone hcon
    · intro hcom
      exact absurd (show ("expired" : String) = "completed" from hcom) (by decide)
  · rw [if_neg hc]
    exact hs y hy

lemma hashInv_create (digest : String → String) (secret uW tW : String) (now : Int)
    (d : List (String × String)) (store : List Order) (hs : hashInv store) :
    hashInv (create_order digest secret uW tW now d store).2 := by
  rcases create_order_cases digest secret uW tW now d store with ⟨h2, _⟩ | ⟨o, hp, hh, _, h2⟩
  · rw [h2]
    exact hs
  · rw [h2]
    intro x hx
    rcases List.mem_append.mp hx with hx | hx
    · exact hs x hx
    · rcases List.mem_singleton.mp hx with rfl
      constructor
      · intro hcon
        exact absurd hh hcon
      · intro hcom
        rw [hp] at hcom
        exact absurd hcom (by decide)

/-- C8 amended: in every order store reachable through create_order,
check_payment_confirmations and expire_old_orders, transaction_hash is
non-null exactly on completed orders, PROVIDED every matched transfer id the
indexer reports is a non-empty string (Python-truthy); without that proviso
the status-only branch of update_order_status breaks the invariant, see the
counterexample. -/
theorem hash_completion_invariant (digest : String → String) (secret uW tW : String)
    (store : List Order) (h : Reachable digest secret uW tW store) : hashInv store := by
  induction h with
  | init =>
    intro o ho
    exact absurd ho (List.not_mem_nil o)
  | create now d s _ ih => exact hashInv_create digest secret uW tW now d s ih
  | recon now trxData usdtData s _ hND ih => exact hashInv_check _ _ _ _ _ _ ih hND
  | expire now s _ ih => exact hashInv_expire now s ih

theorem hash_completion_invariant_witness :
    Reachable (fun _ => "X") "k" "UW" "TW" c8Store ∧ hashInv c8Store :=
  ⟨Reachable.create 0 c8Data [] Reachable.init,
   hash_completion_invariant (fun _ => "X") "k" "UW" "TW" c8Store
     (Reachable.create 0 c8Data [] Reachable.init)⟩

end Umpay
